import Mathlib

/-!
Verification of the padlock-cloud account/credential subsystem (`src/server.go`)
against its natural-language specification.

Strings and byte blobs are modelled as `List Char`.  The three leveldb
namespaces (`pending`/act, `auth`, `data`) are modelled as partial maps from
keys to stored values; a stored value in the `pending` and `auth` namespaces is
abstracted by an inductive that records whether the stored bytes deserialize
(`valid x` stands for the JSON serialization of `x`, `invalid` for bytes on
which `json.Unmarshal` fails and leaves its target at the zero value).
I/O failures of individual store operations are injected through explicit
boolean fault flags, since the Go store can fail on any call.
-/

abbrev Str := List Char

/-- `ApiKey` from server.go: email, device name and the bearer key. -/
structure ApiKey where
  Email : Str
  DeviceName : Str
  Key : Str
deriving DecidableEq, Repr

/-- `AuthAccount` from server.go: an email and a list of api keys. -/
structure AuthAccount where
  Email : Str
  ApiKeys : List ApiKey
deriving DecidableEq, Repr

/-- Go zero value of `ApiKey` (what an ignored `json.Unmarshal` error leaves). -/
def zeroApiKey : ApiKey := ⟨[], [], []⟩

/-- `AuthAccount.RemoveKeyForDevice`: removes the first api key whose
device name matches, leaving the rest untouched (the Go loop returns
after the first removal). -/
def removeKeyForDevice : List ApiKey → Str → List ApiKey
  | [], _ => []
  | k :: rest, d => if k.DeviceName = d then rest else k :: removeKeyForDevice rest d

def AuthAccount.RemoveKeyForDevice (a : AuthAccount) (d : Str) : AuthAccount :=
  { a with ApiKeys := removeKeyForDevice a.ApiKeys d }

/-- `AuthAccount.SetKey`: removes any key registered for the device and
appends the new one. -/
def AuthAccount.SetKey (a : AuthAccount) (apiKey : ApiKey) : AuthAccount :=
  { a with ApiKeys := (a.RemoveKeyForDevice apiKey.DeviceName).ApiKeys ++ [apiKey] }

/-- `AuthAccount.Validate`: true iff some api key of the account has the
given key string (linear scan with early return in Go). -/
def AuthAccount.Validate (a : AuthAccount) (key : Str) : Bool :=
  a.ApiKeys.any (fun k => k.Key == key)

/-- Bytes stored in the `pending` (act) namespace: either the serialization of
an `ApiKey` or bytes that fail to deserialize. -/
inductive PendingData where
  | valid (k : ApiKey)
  | invalid
deriving DecidableEq, Repr

/-- Bytes stored in the `auth` namespace: either the serialization of an
`AuthAccount` or bytes that fail to deserialize. -/
inductive AccountData where
  | valid (a : AuthAccount)
  | invalid
deriving DecidableEq, Repr

/-- `json.Unmarshal(data, &apiKey)` with the error ignored (the `TODO` in
`ActivateApiKey`): undeserializable bytes leave the zero value. -/
def decodePending : PendingData → ApiKey
  | .valid k => k
  | .invalid => zeroApiKey

/-- The mutable server state the activation flow touches: the `pending` (act)
namespace keyed by token and the `auth` namespace keyed by email. -/
structure ServerState where
  pending : Str → Option PendingData
  auth : Str → Option AccountData

/-- Fault injection for the store operations `ActivateApiKey` performs, in
program order: I/O failure of the pending get, of the account get, of
`SaveAuthAccount`, and of the pending delete. -/
structure Faults where
  pendingGetErr : Bool
  authGetErr : Bool
  saveErr : Bool
  deleteErr : Bool
deriving DecidableEq, Repr

def noFaults : Faults := ⟨false, false, false, false⟩

def tokenNotValidMsg : Str := "Token not valid".data

def dbErrorMsg : Str := "Database error".data

def activatedMsg (d : Str) : Str :=
  "The api key for the device ".data ++ d ++ " has been activated!".data

/-- Tail of `ActivateApiKey` once an account `acc` has been fetched or freshly
created: merge the key, save the account, delete the pending entry.  The Go
code assigns the save error to `err` and then immediately overwrites `err`
with the delete error, so only the delete error is checked. -/
def activateMerge (st : ServerState) (f : Faults) (token : Str) (apiKey : ApiKey)
    (acc : AuthAccount) : (Nat × Str) × ServerState :=
  let acc2 := acc.SetKey apiKey
  let auth2 := if f.saveErr then st.auth
    else fun e => if e = acc2.Email then some (AccountData.valid acc2) else st.auth e
  let pend2 := if f.deleteErr then st.pending
    else fun t => if t = token then none else st.pending t
  let st2 : ServerState := ⟨pend2, auth2⟩
  if f.deleteErr then ((500, dbErrorMsg), st2)
  else ((200, activatedMsg apiKey.DeviceName), st2)

/-- `ActivateApiKey` from server.go.  Any error of the pending get (not-found
or I/O alike) yields 404 "Token not valid"; a fetch error other than
not-found yields 500; a missing account is created fresh for the key's email. -/
def ActivateApiKey (st : ServerState) (f : Faults) (token : Str) :
    (Nat × Str) × ServerState :=
  if f.pendingGetErr then ((404, tokenNotValidMsg), st)
  else match st.pending token with
  | none => ((404, tokenNotValidMsg), st)
  | some pdata =>
    let apiKey := decodePending pdata
    if f.authGetErr then ((500, dbErrorMsg), st)
    else match st.auth apiKey.Email with
    | some AccountData.invalid => ((500, dbErrorMsg), st)
    | some (AccountData.valid acc) => activateMerge st f token apiKey acc
    | none => activateMerge st f token apiKey { Email := apiKey.Email, ApiKeys := [] }

/-! ## Lemmas about the key-merge operations -/

lemma removeKeyForDevice_sublist (ks : List ApiKey) (d : Str) :
    List.Sublist (removeKeyForDevice ks d) ks := by
  induction ks with
  | nil => simp [removeKeyForDevice]
  | cons k rest ih =>
    by_cases h : k.DeviceName = d
    · simp [removeKeyForDevice, h]
    · simpa [removeKeyForDevice, h] using ih.cons₂ k

lemma nodup_names_remove (ks : List ApiKey) (d : Str)
    (h : (ks.map ApiKey.DeviceName).Nodup) :
    ((removeKeyForDevice ks d).map ApiKey.DeviceName).Nodup :=
  h.sublist ((removeKeyForDevice_sublist ks d).map ApiKey.DeviceName)

lemma not_mem_names_remove (ks : List ApiKey) (d : Str)
    (h : (ks.map ApiKey.DeviceName).Nodup) :
    d ∉ (removeKeyForDevice ks d).map ApiKey.DeviceName := by
  induction ks with
  | nil => simp [removeKeyForDevice]
  | cons k rest ih =>
    rw [List.map_cons, List.nodup_cons] at h
    by_cases hk : k.DeviceName = d
    · rw [removeKeyForDevice, if_pos hk]
      rw [hk] at h
      exact h.1
    · rw [removeKeyForDevice, if_neg hk, List.map_cons]
      intro hmem
      rcases List.mem_cons.mp hmem with heq | hmem2
      · exact hk heq.symm
      · exact ih h.2 hmem2

lemma mem_remove_of_ne (ks : List ApiKey) (d : Str) (j : ApiKey)
    (hj : j ∈ ks) (hne : j.DeviceName ≠ d) : j ∈ removeKeyForDevice ks d := by
  induction ks with
  | nil => simp at hj
  | cons k rest ih =>
    rcases List.mem_cons.mp hj with heq | hmem
    · subst heq
      rw [removeKeyForDevice, if_neg hne]
      exact List.mem_cons_self _ _
    · by_cases hk : k.DeviceName = d
      · rw [removeKeyForDevice, if_pos hk]; exact hmem
      · rw [removeKeyForDevice, if_neg hk]
        exact List.mem_cons_of_mem _ (ih hmem)

/-! ## The authentication middleware and its header parser

The Go code matches the UNANCHORED regular expression
`ApiKey (?P<email>.+):(?P<key>.+)` against the Authorization header
(`regexp.MustCompile` + `MatchString`/`FindStringSubmatch`).  With Go's
leftmost, operator-greedy match semantics and `.` excluding newline, a match
is: the leftmost occurrence of the literal `ApiKey ` that is followed, within
the maximal newline-free window, by a colon with at least one character before
it and at least one after it; the email capture is greedy, so it extends to
the LAST such colon of the window, and the key capture is the rest of the
window. -/

def apiKeyPat : List Char := ['A', 'p', 'i', 'K', 'e', 'y', ' ']

/-- Maximal newline-free window at the front of a string (`.` in a Go regex
does not match a newline). -/
def window (s : Str) : Str := s.takeWhile (fun c => c != '\n')

/-- Scans the reversed window for the last eligible colon: `acc` holds, in
original order, the characters already passed (those after the current
position).  Succeeds at a colon with a nonempty suffix (`acc`, the key) and a
nonempty remainder (`rest`, the reversed email). -/
def revColonSplit : List Char → List Char → Option (Str × Str)
  | [], _ => none
  | c :: rest, acc =>
    if c = ':' ∧ acc ≠ [] ∧ rest ≠ [] then some (rest.reverse, acc)
    else revColonSplit rest (c :: acc)

/-- Splits a newline-free window at the last colon that leaves a nonempty
email before it and a nonempty key after it (greedy email capture). -/
def splitLastColon (w : Str) : Option (Str × Str) :=
  revColonSplit w.reverse []

/-- Attempts a regex match starting exactly at the front of `s`. -/
def tryMatchAt (s : Str) : Option (Str × Str) :=
  if s.take 7 = apiKeyPat then splitLastColon (window (s.drop 7)) else none

/-- Leftmost match of `ApiKey (?P<email>.+):(?P<key>.+)` over the whole
header, returning the (email, key) captures; `none` iff `MatchString` is
false. -/
def findAuthMatch : List Char → Option (Str × Str)
  | [] => none
  | c :: rest =>
    match tryMatchAt (c :: rest) with
    | some ek => some ek
    | none => findAuthMatch rest

def noAuthHeaderMsg : Str := "No valid authorization header provided".data

def userNotExistsMsg (email : Str) : Str :=
  "User ".data ++ email ++ " does not exists".data

def invalidKeyMsg : Str := "The provided key was not valid".data

/-- Outcome of the `Auth` middleware: either the resolved account is injected
for downstream handlers, or an HTTP error (status, body) is written. -/
inductive AuthOutcome where
  | ok (acc : AuthAccount)
  | httpError (status : Nat) (msg : Str)
deriving DecidableEq, Repr

/-- The account lookup and key check of `Auth`, after a successful header
match.  `FetchAuthAccount` distinguishes not-found (401 with an
account-revealing message) from any other error (500); a stored account that
fails to deserialize is such another error. -/
def authLookup (store : Str → Option AccountData) (email key : Str) : AuthOutcome :=
  match store email with
  | none => .httpError 401 (userNotExistsMsg email)
  | some AccountData.invalid => .httpError 500 dbErrorMsg
  | some (AccountData.valid acc) =>
    if acc.Validate key then .ok acc else .httpError 401 invalidKeyMsg

/-- `Auth` from server.go: header parse, then account fetch and key check.
`getErr` injects an I/O failure of the auth-namespace get. -/
def Auth (header : Str) (store : Str → Option AccountData) (getErr : Bool) : AuthOutcome :=
  match findAuthMatch header with
  | none => .httpError 401 noAuthHeaderMsg
  | some (email, key) =>
    if getErr then .httpError 500 dbErrorMsg else authLookup store email key

/-- The spec's exact credential grammar: the WHOLE header is precisely
`ApiKey <email>:<key>` with `<email>` and `<key>` nonempty, otherwise
unrestricted, strings. -/
def exactApiKeyGrammar (s : Str) : Prop :=
  ∃ e k : Str, e ≠ [] ∧ k ≠ [] ∧ s = apiKeyPat ++ (e ++ (':' :: k))

/-! ## The remaining handlers -/

/-- `json.Marshal` of an `ApiKey` (fields in struct order with their JSON
tags; escaping of special characters inside the field values is not
modelled). -/
def serializeApiKey (k : ApiKey) : Str :=
  "\x7b\"email\":\"".data ++ k.Email ++ "\",\"device_name\":\"".data ++ k.DeviceName
    ++ "\",\"key\":\"".data ++ k.Key ++ "\"\x7d".data

/-- `RequestApiKey` from server.go: builds the `ApiKey` from the form fields
and the two freshly generated uuids (passed in as `key` and `token`), stores
its serialization under `token` in the pending namespace (the `Put` error is
ignored — `putErr` injects its failure), fires off the activation mail
without observing the outcome (`mailOk` is never read), and responds 200 with
the serialized key. -/
def RequestApiKey (pend : Str → Option PendingData) (email deviceName key token : Str)
    (putErr : Bool) (mailOk : Bool) : (Nat × Str) × (Str → Option PendingData) :=
  let apiKey : ApiKey := ⟨email, deviceName, key⟩
  let pend2 := if putErr then pend
    else fun t => if t = token then some (PendingData.valid apiKey) else pend t
  ((200, serializeApiKey apiKey), pend2)

def noDataMsg (email : Str) : Str := "Could not find data for ".data ++ email

/-- `GetData` from server.go: read the blob for the account's email;
not-found is 404, any other read error 500. -/
def GetData (acc : AuthAccount) (db : Str → Option Str) (getErr : Bool) : Nat × Str :=
  if getErr then (500, dbErrorMsg)
  else match db acc.Email with
  | none => (404, noDataMsg acc.Email)
  | some d => (200, d)

/-- `PutData` from server.go: overwrite the blob for the account's email with
the request body and echo it back; a write error is 500. -/
def PutData (acc : AuthAccount) (data : Str) (db : Str → Option Str) (putErr : Bool) :
    (Nat × Str) × (Str → Option Str) :=
  if putErr then ((500, dbErrorMsg), db)
  else ((200, data), fun e => if e = acc.Email then some data else db e)

/-! ## Lemmas about the header parser -/

lemma revColonSplit_cons (c : Char) (rest acc : List Char) :
    revColonSplit (c :: rest) acc =
      if c = ':' ∧ acc ≠ [] ∧ rest ≠ [] then some (rest.reverse, acc)
      else revColonSplit rest (c :: acc) := rfl

lemma revColonSplit_no_colon (m : List Char) (hm : ':' ∉ m) :
    ∀ ys acc, revColonSplit (m ++ ys) acc = revColonSplit ys (m.reverse ++ acc) := by
  induction m with
  | nil => intro ys acc; simp
  | cons c rest ih =>
    intro ys acc
    have hc : c ≠ ':' := fun h => hm (h ▸ List.mem_cons_self c rest)
    rw [List.cons_append, revColonSplit_cons, if_neg (by simp [hc])]
    rw [ih (fun h => hm (List.mem_cons_of_mem c h)) ys (c :: acc)]
    simp [List.append_assoc]

lemma splitLastColon_eq (e k : Str) (he : e ≠ []) (hk : k ≠ []) (hck : ':' ∉ k) :
    splitLastColon (e ++ ':' :: k) = some (e, k) := by
  unfold splitLastColon
  have hrev : (e ++ ':' :: k).reverse = k.reverse ++ (':' :: e.reverse) := by
    simp [List.reverse_append, List.reverse_cons, List.append_assoc]
  rw [hrev, revColonSplit_no_colon k.reverse (by simpa using hck)]
  rw [revColonSplit_cons, if_pos ⟨rfl, by simpa using hk, by simpa using he⟩]
  simp

lemma window_eq_self (m : Str) (h : '\n' ∉ m) : window m = m := by
  unfold window
  induction m with
  | nil => rfl
  | cons c rest ih =>
    have hc : c ≠ '\n' := fun hc => h (hc ▸ List.mem_cons_self c rest)
    rw [List.takeWhile_cons_of_pos (by simpa using hc)]
    rw [ih (fun hm => h (List.mem_cons_of_mem c hm))]

lemma findAuthMatch_cons (c : Char) (rest : Str) :
    findAuthMatch (c :: rest) =
      match tryMatchAt (c :: rest) with
      | some ek => some ek
      | none => findAuthMatch rest := rfl

/-- A header that begins with `ApiKey ` and whose remainder admits a split is
matched at position 0 with exactly that split. -/
lemma findAuthMatch_pat (m : Str) (ek : Str × Str)
    (h : splitLastColon (window m) = some ek) :
    findAuthMatch (apiKeyPat ++ m) = some ek := by
  have hform : apiKeyPat ++ m = 'A' :: ('p' :: 'i' :: 'K' :: 'e' :: 'y' :: ' ' :: m) := rfl
  rw [hform, findAuthMatch_cons]
  have htry : tryMatchAt ('A' :: 'p' :: 'i' :: 'K' :: 'e' :: 'y' :: ' ' :: m) =
      splitLastColon (window m) := by
    unfold tryMatchAt
    exact if_pos rfl
  rw [htry, h]

/-! ## C10: greedy split at the last colon -/

/-- C10: on a header of the shape `ApiKey ` ++ e ++ `:` ++ k where `k` holds
no further colon (so the shown colon is the last one) and neither part holds a
newline, the parser captures `e` as the email and `k` as the key: the greedy
email capture extends to the final colon, as in `ApiKey a:b:c` ↦ (`a:b`, `c`). -/
theorem C10_greedy_last_colon_split (e k : Str) (he : e ≠ []) (hk : k ≠ [])
    (hne : '\n' ∉ e) (hnk : '\n' ∉ k) (hck : ':' ∉ k) :
    findAuthMatch (apiKeyPat ++ (e ++ ':' :: k)) = some (e, k) := by
  have hwin : window (e ++ ':' :: k) = e ++ ':' :: k := by
    refine window_eq_self _ ?_
    intro hmem
    rcases List.mem_append.mp hmem with hmem | hmem
    · exact hne hmem
    · rcases List.mem_cons.mp hmem with hc | hmem
      · exact absurd hc.symm (by decide)
      · exact hnk hmem
  exact findAuthMatch_pat _ _ (by rw [hwin]; exact splitLastColon_eq e k he hk hck)

/-- Witness for C10 at the claim's own example `ApiKey a:b:c`:
email `a:b`, key `c`. -/
theorem C10_greedy_last_colon_split_witness :
    findAuthMatch (apiKeyPat ++ ("a:b".data ++ ':' :: "c".data)) =
      some ("a:b".data, "c".data) :=
  C10_greedy_last_colon_split ("a:b".data) ("c".data) (by decide) (by decide)
    (by decide) (by decide) (by decide)

/-! ## C1: the authentication contract -/

lemma take_seven_of_pat (m : Str) : (apiKeyPat ++ m).take 7 = apiKeyPat := rfl

/-- C1 counterexample: the regex is unanchored, so the header `xApiKey a:b`
— which does NOT have the exact shape `ApiKey <email>:<key>` — still
authenticates successfully against an account `a` holding key `b`.  This
refutes both directions of the claim: authentication succeeds on a header
outside the exact grammar, and such a header is neither rejected with
Unauthorized nor kept away from storage. -/
theorem C1_counterexample_unanchored :
    ¬ exactApiKeyGrammar ("xApiKey a:b".data) ∧
    Auth ("xApiKey a:b".data)
      (fun e => if e = "a".data then
        some (AccountData.valid ⟨"a".data, [⟨"a".data, "d".data, "b".data⟩]⟩) else none)
      false
      = AuthOutcome.ok ⟨"a".data, [⟨"a".data, "d".data, "b".data⟩]⟩ := by
  constructor
  · rintro ⟨e, k, he, hk, h⟩
    have h7 : ("xApiKey a:b".data).take 7 = apiKeyPat := by
      rw [h]; exact take_seven_of_pat _
    exact absurd h7 (by decide)
  · decide

/-- C1 as amended: `Auth` succeeds (yielding the resolved account) iff the
unanchored pattern `ApiKey <email>:<key>` matches somewhere in the header —
the leftmost match with greedy email capture supplying the credentials — an
account stored under the captured email deserializes, and the captured key
equals the key of one of its api keys.  And whenever the pattern matches
nowhere in the header, the outcome is 401 Unauthorized with the generic
message, independent of the store contents and of store faults (no storage
access is performed). -/
lemma authLookup_eq_ok_iff (store : Str → Option AccountData) (e k : Str)
    (acc : AuthAccount) :
    authLookup store e k = AuthOutcome.ok acc ↔
      store e = some (AccountData.valid acc) ∧ acc.Validate k = true := by
  unfold authLookup
  cases hse : store e with
  | none => simp
  | some ad =>
    cases ad with
    | invalid => simp
    | valid acc2 =>
      show (if acc2.Validate k = true then AuthOutcome.ok acc2
        else AuthOutcome.httpError 401 invalidKeyMsg) = AuthOutcome.ok acc ↔ _
      by_cases hv : acc2.Validate k = true
      · rw [if_pos hv]
        simp only [AuthOutcome.ok.injEq, Option.some.injEq, AccountData.valid.injEq]
        constructor
        · intro h; exact ⟨h, h ▸ hv⟩
        · intro h; exact h.1
      · rw [if_neg hv]
        simp only [Option.some.injEq, AccountData.valid.injEq]
        constructor
        · intro h; exact absurd h (by simp)
        · rintro ⟨h1, h2⟩; exact absurd (h1 ▸ h2) hv

theorem C1_auth_contains_amended (header : Str) (store : Str → Option AccountData) :
    ((∃ acc, Auth header store false = AuthOutcome.ok acc) ↔
      (∃ e k acc, findAuthMatch header = some (e, k)
        ∧ store e = some (AccountData.valid acc) ∧ acc.Validate k = true))
    ∧ (findAuthMatch header = none →
        ∀ (store2 : Str → Option AccountData) (getErr2 : Bool),
          Auth header store2 getErr2 = AuthOutcome.httpError 401 noAuthHeaderMsg) := by
  constructor
  · constructor
    · rintro ⟨acc, hacc⟩
      unfold Auth at hacc
      cases hfm : findAuthMatch header with
      | none => rw [hfm] at hacc; exact absurd hacc (by simp)
      | some ek =>
        obtain ⟨e, k⟩ := ek
        rw [hfm] at hacc
        simp only [Bool.false_eq_true, if_false] at hacc
        obtain ⟨hse, hv⟩ := (authLookup_eq_ok_iff store e k acc).mp hacc
        exact ⟨e, k, acc, rfl, hse, hv⟩
    · rintro ⟨e, k, acc, hfm, hse, hv⟩
      refine ⟨acc, ?_⟩
      unfold Auth
      rw [hfm]
      simp only [Bool.false_eq_true, if_false]
      exact (authLookup_eq_ok_iff store e k acc).mpr ⟨hse, hv⟩
  · intro hnone store2 getErr2
    unfold Auth
    rw [hnone]

/-- Witness for C1's amended theorem: the well-formed header `ApiKey a:b`
authenticates against a store holding account `a` with key `b`. -/
theorem C1_auth_contains_amended_witness :
    ∃ acc, Auth ("ApiKey a:b".data)
      (fun e => if e = "a".data then
        some (AccountData.valid ⟨"a".data, [⟨"a".data, "d".data, "b".data⟩]⟩) else none)
      false = AuthOutcome.ok acc :=
  (C1_auth_contains_amended ("ApiKey a:b".data) _).1.mpr
    ⟨"a".data, "b".data, ⟨"a".data, [⟨"a".data, "d".data, "b".data⟩]⟩,
      by decide, by decide, by decide⟩

/-! ## C5: the account-existence leak in authentication errors -/

/-- C5: the claim demands that the two failure modes of a well-formed
credential — unknown account versus wrong key — be indistinguishable.  The
code distinguishes them: with no account stored under `a` the body is
`User a does not exists`, while with an account stored under `a` whose only
key differs the body is `The provided key was not valid`.  Both statuses are
401, but the two messages differ, leaking account existence. -/
theorem C5_distinct_unauthorized_messages :
    Auth ("ApiKey a:b".data) (fun _ => none) false
      = AuthOutcome.httpError 401 (userNotExistsMsg "a".data)
    ∧ Auth ("ApiKey a:b".data)
        (fun e => if e = "a".data then
          some (AccountData.valid ⟨"a".data, [⟨"a".data, "d".data, "z".data⟩]⟩) else none)
        false
      = AuthOutcome.httpError 401 invalidKeyMsg
    ∧ userNotExistsMsg "a".data ≠ invalidKeyMsg := by
  refine ⟨by decide, by decide, by decide⟩

/-! ## C2: uniqueness of device names is preserved by SetKey -/

/-- C2: if an account has at most one api key per device name (its device-name
list has no duplicate), then after `SetKey` with any api key it still does.
Since freshly created accounts have no keys and activation mutates accounts
only through `SetKey`, every account reachable by merges keeps the invariant. -/
theorem C2_setKey_preserves_unique_names (a : AuthAccount) (apiKey : ApiKey)
    (h : (a.ApiKeys.map ApiKey.DeviceName).Nodup) :
    (((a.SetKey apiKey).ApiKeys).map ApiKey.DeviceName).Nodup := by
  unfold AuthAccount.SetKey AuthAccount.RemoveKeyForDevice
  simp only [List.map_append, List.map_cons, List.map_nil]
  rw [List.nodup_append]
  refine ⟨nodup_names_remove _ _ h, List.nodup_singleton _, ?_⟩
  intro x hx hx2
  rw [List.mem_singleton] at hx2
  subst hx2
  exact not_mem_names_remove _ _ h hx

/-- Witness for C2: replacing the key of device `d1` on an account holding
devices `d1` and `d2` keeps the device names duplicate-free. -/
theorem C2_setKey_preserves_unique_names_witness :
    ((((⟨"e".data, [⟨"e".data, "d1".data, "k1".data⟩, ⟨"e".data, "d2".data, "kx".data⟩]⟩ :
        AuthAccount).SetKey ⟨"e".data, "d1".data, "k2".data⟩).ApiKeys).map
      ApiKey.DeviceName).Nodup :=
  C2_setKey_preserves_unique_names _ _ (by decide)

/-! ## C3: activating an unknown token -/

/-- C3: for every token with no entry in the pending namespace, activation
returns 404 "Token not valid" and the whole server state — every account in
the auth namespace and every entry of the pending namespace — is returned
unchanged, under every combination of injected store faults. -/
theorem C3_unknown_token_notFound (st : ServerState) (f : Faults) (token : Str)
    (h : st.pending token = none) :
    ActivateApiKey st f token = ((404, tokenNotValidMsg), st) := by
  unfold ActivateApiKey
  by_cases hf : f.pendingGetErr = true
  · rw [if_pos hf]
  · rw [if_neg hf, h]

/-- Witness for C3 on the empty state and token `t`. -/
theorem C3_unknown_token_notFound_witness :
    ActivateApiKey ⟨fun _ => none, fun _ => none⟩ noFaults ("t".data)
      = ((404, tokenNotValidMsg), ⟨fun _ => none, fun _ => none⟩) :=
  C3_unknown_token_notFound ⟨fun _ => none, fun _ => none⟩ noFaults ("t".data) rfl

/-! ## C4: a failed account save is silently swallowed -/

/-- C4: the claim says a failing account save yields a 500 StorageError just
as a failing pending delete does.  The code assigns the save error to `err`
and immediately overwrites `err` with the delete error, so when only the save
fails (saveErr = true, delete succeeds) activation answers 200 success: the
account was NOT saved (the auth namespace still has no account `e`), yet the
pending entry was deleted and the success message returned. -/
theorem C4_save_failure_ignored :
    (let st : ServerState :=
      ⟨fun t => if t = "t".data then
          some (PendingData.valid ⟨"e".data, "d".data, "k".data⟩) else none,
        fun _ => none⟩
     let r := ActivateApiKey st ⟨false, false, true, false⟩ ("t".data)
     r.1 = (200, activatedMsg ("d".data))
       ∧ r.2.auth ("e".data) = none
       ∧ r.2.pending ("t".data) = none) := by
  decide

/-! ## C6: a pending entry that fails to deserialize -/

/-- C6: the claim says an undeserializable pending value behaves like an
absent token (404, nothing modified).  The code ignores the `json.Unmarshal`
error, proceeds with the zero-value `ApiKey`, and therefore answers 200,
creates an account under the empty email holding the zero api key, and
deletes the pending entry. -/
theorem C6_invalid_pending_creates_account :
    (let st : ServerState :=
      ⟨fun t => if t = "t".data then some PendingData.invalid else none,
        fun _ => none⟩
     let r := ActivateApiKey st noFaults ("t".data)
     r.1 = (200, activatedMsg [])
       ∧ r.2.auth [] = some (AccountData.valid ⟨[], [zeroApiKey]⟩)
       ∧ r.2.pending ("t".data) = none) := by
  decide

/-! ## C7: put/get round trip on the data namespace -/

/-- C7: for every account and byte string, a successful `PutData` answers 200
with exactly the stored bytes, and an immediately following `GetData` on the
updated namespace returns exactly those bytes. -/
theorem C7_put_get_roundtrip (acc : AuthAccount) (b : Str) (db : Str → Option Str) :
    (PutData acc b db false).1 = (200, b)
    ∧ GetData acc ((PutData acc b db false).2) false = (200, b) := by
  constructor
  · rfl
  · simp [PutData, GetData]

/-! ## C8: activation replaces only the key of the matching device -/

/-- C8: activating a token whose api key names a device already present on
the stored account saves exactly `acc.SetKey apiKey`: the account's email is
unchanged, the new key is present, and every existing api key with a
different device name is still present unchanged in the saved account. -/
theorem C8_activation_frame (st : ServerState) (token : Str) (apiKey : ApiKey)
    (acc : AuthAccount)
    (hp : st.pending token = some (PendingData.valid apiKey))
    (ha : st.auth apiKey.Email = some (AccountData.valid acc))
    (hd : ∃ j ∈ acc.ApiKeys, j.DeviceName = apiKey.DeviceName) :
    ((ActivateApiKey st noFaults token).2.auth acc.Email
        = some (AccountData.valid (acc.SetKey apiKey)))
    ∧ (acc.SetKey apiKey).Email = acc.Email
    ∧ apiKey ∈ (acc.SetKey apiKey).ApiKeys
    ∧ ∀ j ∈ acc.ApiKeys, j.DeviceName ≠ apiKey.DeviceName →
        j ∈ (acc.SetKey apiKey).ApiKeys := by
  refine ⟨?_, rfl, ?_, ?_⟩
  · unfold ActivateApiKey
    rw [if_neg (by decide : ¬ noFaults.pendingGetErr = true), hp]
    show (if noFaults.authGetErr = true then ((500, dbErrorMsg), st)
      else match st.auth (decodePending (PendingData.valid apiKey)).Email with
        | some AccountData.invalid => ((500, dbErrorMsg), st)
        | some (AccountData.valid acc) =>
          activateMerge st noFaults token (decodePending (PendingData.valid apiKey)) acc
        | none => activateMerge st noFaults token (decodePending (PendingData.valid apiKey))
            { Email := (decodePending (PendingData.valid apiKey)).Email, ApiKeys := [] }
      ).2.auth acc.Email = _
    rw [if_neg (by decide : ¬ noFaults.authGetErr = true)]
    show (match st.auth apiKey.Email with
        | some AccountData.invalid => ((500, dbErrorMsg), st)
        | some (AccountData.valid acc) => activateMerge st noFaults token apiKey acc
        | none => activateMerge st noFaults token apiKey
            { Email := apiKey.Email, ApiKeys := [] }).2.auth acc.Email = _
    rw [ha]
    show (activateMerge st noFaults token apiKey acc).2.auth acc.Email = _
    unfold activateMerge
    simp only [noFaults, Bool.false_eq_true, if_false]
    exact if_pos rfl
  · simp [AuthAccount.SetKey]
  · intro j hj hne
    simp only [AuthAccount.SetKey, AuthAccount.RemoveKeyForDevice]
    exact List.mem_append_left _ (mem_remove_of_ne _ _ _ hj hne)

/-- Witness for C8: activating a replacement key for device `d` on an account
holding devices `d` and `d2`. -/
theorem C8_activation_frame_witness :
    ((ActivateApiKey
        ⟨fun t => if t = "t".data then
            some (PendingData.valid ⟨"e".data, "d".data, "k2".data⟩) else none,
          fun e => if e = "e".data then
            some (AccountData.valid ⟨"e".data,
              [⟨"e".data, "d".data, "k1".data⟩, ⟨"e".data, "d2".data, "kx".data⟩]⟩)
            else none⟩
        noFaults ("t".data)).2.auth ("e".data)
      = some (AccountData.valid
          ((⟨"e".data, [⟨"e".data, "d".data, "k1".data⟩, ⟨"e".data, "d2".data, "kx".data⟩]⟩ :
            AuthAccount).SetKey ⟨"e".data, "d".data, "k2".data⟩)))
    ∧ ((⟨"e".data, [⟨"e".data, "d".data, "k1".data⟩, ⟨"e".data, "d2".data, "kx".data⟩]⟩ :
        AuthAccount).SetKey ⟨"e".data, "d".data, "k2".data⟩).Email = "e".data
    ∧ (⟨"e".data, "d".data, "k2".data⟩ : ApiKey) ∈
        ((⟨"e".data, [⟨"e".data, "d".data, "k1".data⟩, ⟨"e".data, "d2".data, "kx".data⟩]⟩ :
          AuthAccount).SetKey ⟨"e".data, "d".data, "k2".data⟩).ApiKeys
    ∧ (⟨"e".data, "d2".data, "kx".data⟩ : ApiKey) ∈
        ((⟨"e".data, [⟨"e".data, "d".data, "k1".data⟩, ⟨"e".data, "d2".data, "kx".data⟩]⟩ :
          AuthAccount).SetKey ⟨"e".data, "d".data, "k2".data⟩).ApiKeys := by
  have h := C8_activation_frame
    ⟨fun t => if t = "t".data then
        some (PendingData.valid ⟨"e".data, "d".data, "k2".data⟩) else none,
      fun e => if e = "e".data then
        some (AccountData.valid ⟨"e".data,
          [⟨"e".data, "d".data, "k1".data⟩, ⟨"e".data, "d2".data, "kx".data⟩]⟩)
        else none⟩
    ("t".data) ⟨"e".data, "d".data, "k2".data⟩
    ⟨"e".data, [⟨"e".data, "d".data, "k1".data⟩, ⟨"e".data, "d2".data, "kx".data⟩]⟩
    (by decide) (by decide) (by decide)
  exact ⟨h.1, h.2.1, h.2.2.1,
    h.2.2.2 ⟨"e".data, "d2".data, "kx".data⟩ (by decide) (by decide)⟩

/-! ## C9: requesting an api key -/

/-- C9: for every email and device name (and freshly generated key and token),
`RequestApiKey` with a succeeding store write persists the api key under the
token in the pending namespace and answers 200 with the serialized api key —
including the still-inactive key — and the whole outcome is identical whether
the fire-and-forget activation mail succeeds or fails. -/
theorem C9_requestKey_persists_and_responds (pend : Str → Option PendingData)
    (email deviceName key token : Str) (mailOk : Bool) :
    (RequestApiKey pend email deviceName key token false mailOk).1
      = (200, serializeApiKey ⟨email, deviceName, key⟩)
    ∧ (RequestApiKey pend email deviceName key token false mailOk).2 token
      = some (PendingData.valid ⟨email, deviceName, key⟩)
    ∧ RequestApiKey pend email deviceName key token false mailOk
      = RequestApiKey pend email deviceName key token false (!mailOk) := by
  refine ⟨rfl, ?_, rfl⟩
  simp [RequestApiKey]
